import Mathlib

/-!
Shallow embedding of the parsing/resolution core of `daily_schedule_scraper.py`.

Dictionaries with insertion order (Python `dict`) are modelled as association
lists `List (String × _)`; an optional dictionary key is an `Option` field.
Text extracted from the markup (the BeautifulSoup boundary) arrives
pre-extracted in `RawRow`; everything downstream of that boundary is
translated line by line from the source.
-/

/-- One entry of the personnel schedule (`parse_personnel_schedule`,
lines 179-203): each of the four keys is set independently when the
corresponding sub-element is present. -/
structure PersonnelEntry where
  person : Option String
  rotation : Option String
  assignment : Option String
  comment : Option String
deriving DecidableEq, Repr

/-- One procedure entry of a room (`parse_procedure_schedule`, lines 240-296).
`personnel` and `cpt_codes` are set only when non-empty in the source, so the
empty list models the absent key. -/
structure ProcedureEntry where
  time : Option String
  personnel : List String
  patient_age : Option String
  description : Option String
  cpt_codes : List String
  anesthesia_type : Option String
  surgeon : Option String
deriving DecidableEq, Repr

/-- A procedure entry as it appears in a resolution result's `cases` list:
the fallback path adds a `room` key (line 434); the direct path copies the
entries verbatim, so `room = none` there. -/
structure Case extends ProcedureEntry where
  room : Option String
deriving DecidableEq, Repr

/-- `result['personnel_info'] = {'group': group, **entry}` (lines 408-411). -/
structure PersonnelInfo extends PersonnelEntry where
  group : String
deriving DecidableEq, Repr

/-- The snapshot assembled by `parse_schedule` (lines 344-351), minus the
wall-clock `parsed_at` stamp. -/
structure ParsedData where
  date : String
  formatted_date : String
  global_comments : String
  personnel_schedule : List (String × List PersonnelEntry)
  procedure_schedule : List (String × List ProcedureEntry)
deriving DecidableEq, Repr

/-- The resolution result built by `find_person_assignment` (lines 394-401). -/
structure PersonAssignment where
  date : String
  person : String
  found : Bool
  personnel_info : Option PersonnelInfo
  room_assignment : Option String
  cases : List Case
deriving DecidableEq, Repr

/-! ### String helpers (Python `str` methods on `List Char`) -/

/-- Python `str.strip()`: drop whitespace from both ends. -/
def pyStrip (s : List Char) : List Char :=
  ((s.dropWhile Char.isWhitespace).reverse.dropWhile Char.isWhitespace).reverse

/-- `str.strip()` on `String`. -/
def pyStripStr (s : String) : String :=
  (pyStrip s.toList).asString

/-- Python `str.lower()`: lowercase every character. -/
def pyLower (s : String) : String :=
  (s.toList.map Char.toLower).asString

/-- Python `str.rfind(c)`: index of the last occurrence of `c`, `none` for -1. -/
def rfindIdx : List Char → Char → Option Nat
  | [], _ => none
  | a :: as, c =>
    match rfindIdx as c with
    | some i => some (i + 1)
    | none => if a = c then some 0 else none

/-! ### Field Normalizer: anesthesia type and CPT codes
(`parse_procedure_schedule`, lines 270-290) -/

/-- Lines 280-284: the `anesthesia_type` variable.  Requires a `(` and a `)`
with the last `(` before the last `)`; slices `desc_text[last_paren+1 :
desc_text.rfind(chr 41)]` and strips it. -/
def anesthesia_raw (cs : List Char) : Option (List Char) :=
  if '(' ∈ cs ∧ ')' ∈ cs then
    match rfindIdx cs '(', rfindIdx cs ')' with
    | some lp, some rp =>
      if lp < rp then some (pyStrip ((cs.drop (lp + 1)).take (rp - (lp + 1)))) else none
    | _, _ => none
  else none

/-- Lines 289-290: `if anesthesia_type:` — the key is emitted only when the
extracted string is non-empty (Python truthiness). -/
def anesthesia_field (cs : List Char) : Option (List Char) :=
  match anesthesia_raw cs with
  | some t => if t.isEmpty then none else some t
  | none => none

/-- `anesthesia_field` on `String`. -/
def anesthesia_fieldStr (s : String) : Option String :=
  (anesthesia_field s.toList).map List.asString

/-- Split a character list at the first occurrence of `pat`, returning the
part before it and the part after; `none` when `pat` does not occur. -/
def splitFirstAt (pat : List Char) : List Char → Option (List Char × List Char)
  | [] => if pat = [] then some ([], []) else none
  | c :: rest =>
    if pat.isPrefixOf (c :: rest) then some ([], (c :: rest).drop pat.length)
    else (splitFirstAt pat rest).map (fun ab => (c :: ab.1, ab.2))

/-- Python `s.split(pat)[1]`: the segment after the first occurrence of `pat`
and before its next occurrence (or to the end). -/
def segmentAfterFirst (pat s : List Char) : Option (List Char) :=
  (splitFirstAt pat s).map (fun ab =>
    match splitFirstAt pat ab.2 with
    | some cd => cd.1
    | none => ab.2)

/-- Lines 274-277: extract one CPT code from a link target.  `cpt=` must occur
in the href; the code is `href.split(chr 39 ++ "cpt=")[1]`, cut at the first
`&` when the whole href contains one. -/
def extract_cpt (href : String) : Option String :=
  let cs := href.toList
  match segmentAfterFirst "cpt=".toList cs with
  | none => none
  | some part =>
    if '&' ∈ cs then
      some (match splitFirstAt ['&'] part with
            | some ab => ab.1.asString
            | none => part.asString)
    else some part.asString

/-! ### Markup Extractor boundary: one table row, pre-extracted text
(`parse_procedure_schedule`, lines 232-296) -/

/-- The text content of one `tr[data-orwatch-room]` row, as delivered by the
selector layer: `room` is the row attribute, `time` the `.time` span text,
`personnel` the `.person` span texts of the third cell, `patient_age` the
fourth cell text, `desc_text` the first `small` tag text, `cpt_hrefs` the
`a.intranet` link targets inside it, `surgeon` the span text of the second
`small` tag (the surgeon block exists only when the description block does,
so it is ignored when `desc_text` is absent). -/
structure RawRow where
  room : String
  time : Option String
  personnel : List String
  patient_age : Option String
  desc_text : Option String
  cpt_hrefs : List String
  surgeon : Option String
deriving DecidableEq, Repr

/-- The procedure dictionary with no keys set (Python `{}`). -/
def emptyProcedure : ProcedureEntry :=
  { time := none, personnel := [], patient_age := none, description := none,
    cpt_codes := [], anesthesia_type := none, surgeon := none }

/-- Lines 240-296: build the `procedure` dictionary for one row. -/
def mkProcedure (row : RawRow) : ProcedureEntry :=
  let time := row.time.map pyStripStr
  let personnel := row.personnel.map pyStripStr
  let patient_age := row.patient_age.bind (fun a =>
    if pyStripStr a = "" then none else some (pyStripStr a))
  match row.desc_text with
  | none =>
    { time := time, personnel := personnel, patient_age := patient_age,
      description := none, cpt_codes := [], anesthesia_type := none,
      surgeon := none }
  | some t =>
    let d := pyStripStr t
    { time := time, personnel := personnel, patient_age := patient_age,
      description := some d,
      cpt_codes := (row.cpt_hrefs.map extract_cpt).reduceOption,
      anesthesia_type := anesthesia_fieldStr d,
      surgeon := row.surgeon.map pyStripStr }

/-- `if room_name not in procedure_data: procedure_data[room_name] = []`
(lines 236-237): Python dict key insertion at the end, preserving order. -/
def ensureRoom (m : List (String × List ProcedureEntry)) (r : String) :
    List (String × List ProcedureEntry) :=
  if m.any (fun kv => kv.1 == r) then m else m ++ [(r, [])]

/-- `procedure_data[room_name].append(procedure)` (line 300). -/
def appendToRoom (m : List (String × List ProcedureEntry)) (r : String)
    (p : ProcedureEntry) : List (String × List ProcedureEntry) :=
  m.map (fun kv => if kv.1 == r then (kv.1, kv.2 ++ [p]) else kv)

/-- The body of the row loop (lines 232-300): register the room key, then
append the procedure only when it is non-empty (`if procedure:`). -/
def procStep (m : List (String × List ProcedureEntry)) (row : RawRow) :
    List (String × List ProcedureEntry) :=
  let m1 := ensureRoom m row.room
  let p := mkProcedure row
  if p = emptyProcedure then m1 else appendToRoom m1 row.room p

/-- `parse_procedure_schedule` (lines 215-306): fold the rows, then drop
rooms whose entry list ended up empty (line 303). -/
def parse_procedure_schedule (rows : List RawRow) :
    List (String × List ProcedureEntry) :=
  (rows.foldl procStep []).filter (fun kv => !kv.2.isEmpty)

/-! ### Schedule Assembler: date formatting (`parse_schedule`, lines 322-331) -/

/-- Year / month / day / hour / minute / second of a parsed timestamp. -/
structure DateTimeVal where
  year : Nat
  month : Nat
  day : Nat
  hour : Nat
  minute : Nat
  second : Nat
deriving DecidableEq, Repr

/-- Numeric value of a digit run. -/
def digitsVal (ds : List Char) : Nat :=
  ds.foldl (fun n c => n * 10 + (c.toNat - '0'.toNat)) 0

/-- Maximal leading digit run and the rest. -/
def splitDigits (cs : List Char) : List Char × List Char :=
  (cs.takeWhile Char.isDigit, cs.dropWhile Char.isDigit)

/-- Gregorian leap year (`calendar`/`datetime` rule). -/
def isLeapYear (y : Nat) : Bool :=
  (y % 4 = 0 && y % 100 != 0) || y % 400 = 0

/-- Days in a month, as validated by the `datetime` constructor. -/
def daysInMonth (y m : Nat) : Nat :=
  if m = 2 then (if isLeapYear y then 29 else 28)
  else if m = 4 ∨ m = 6 ∨ m = 9 ∨ m = 11 then 30
  else 31

/-- The range checks of the `datetime` constructor: `strptime` hands its regex
captures to `datetime(...)`, which rejects year 0, out-of-range days and the
leap seconds the regex itself admits. -/
def mkValidDateTime (y mo d h mi s : Nat) : Option DateTimeVal :=
  if 1 ≤ y ∧ 1 ≤ d ∧ d ≤ daysInMonth y mo ∧ s ≤ 59 then
    some { year := y, month := mo, day := d, hour := h, minute := mi, second := s }
  else none

/-- `datetime.strptime(date_str, "%Y-%m-%d %H:%M:%S")` (line 328), modelled
after the CPython `_strptime` regex: `%Y` is exactly four digits; `%m`, `%d`,
`%H`, `%M`, `%S` are one or two digits within their ranges (`%S` admits leap
seconds 60-61, rejected later by the constructor); the format space matches
one or more whitespace characters; the whole string must be consumed. -/
def strptime_Y_md_HMS (s : String) : Option DateTimeVal :=
  let (yd, r1) := splitDigits s.toList
  if yd.length ≠ 4 then none else
  match r1 with
  | '-' :: r2 =>
    let (md, r3) := splitDigits r2
    if md.length = 0 ∨ 2 < md.length ∨ digitsVal md < 1 ∨ 12 < digitsVal md then none else
    match r3 with
    | '-' :: r4 =>
      let (dd, r5) := splitDigits r4
      if dd.length = 0 ∨ 2 < dd.length ∨ digitsVal dd < 1 ∨ 31 < digitsVal dd then none else
      let r6 := r5.dropWhile Char.isWhitespace
      if r5 = r6 ∨ r5.isEmpty then none else
      let (hd, r7) := splitDigits r6
      if hd.length = 0 ∨ 2 < hd.length ∨ 23 < digitsVal hd then none else
      match r7 with
      | ':' :: r8 =>
        let (mind, r9) := splitDigits r8
        if mind.length = 0 ∨ 2 < mind.length ∨ 59 < digitsVal mind then none else
        match r9 with
        | ':' :: r10 =>
          let (sd, r11) := splitDigits r10
          if sd.length = 0 ∨ 2 < sd.length ∨ 61 < digitsVal sd then none else
          if r11.isEmpty then
            mkValidDateTime (digitsVal yd) (digitsVal md) (digitsVal dd)
              (digitsVal hd) (digitsVal mind) (digitsVal sd)
          else none
        | _ => none
      | _ => none
    | _ => none
  | _ => none

/-- Day of the week in the proleptic Gregorian calendar, Python numbering
(`date.weekday()`: Monday = 0), via Zeller's congruence. -/
def pyWeekday (y m d : Nat) : Nat :=
  let m1 := if m ≤ 2 then m + 12 else m
  let y1 := if m ≤ 2 then y - 1 else y
  let K := y1 % 100
  let J := y1 / 100
  (d + (13 * (m1 + 1)) / 5 + K + K / 4 + J / 4 + 5 * J + 5) % 7

/-- `%A` names in the C locale. -/
def weekdayName (w : Nat) : String :=
  ["Monday", "Tuesday", "Wednesday", "Thursday", "Friday", "Saturday",
   "Sunday"].getD w ""

/-- `%B` names in the C locale. -/
def monthName (m : Nat) : String :=
  ["January", "February", "March", "April", "May", "June", "July", "August",
   "September", "October", "November", "December"].getD (m - 1) ""

/-- `%d`: zero-padded two-digit day. -/
def pad2 (n : Nat) : String :=
  if n < 10 then "0" ++ toString n else toString n

/-- `date_obj.strftime("%A, %B %d, %Y")` (line 329). -/
def strftimeLong (dt : DateTimeVal) : String :=
  weekdayName (pyWeekday dt.year dt.month dt.day) ++ ", " ++
    monthName dt.month ++ " " ++ pad2 dt.day ++ ", " ++ toString dt.year

/-- Lines 327-331: the `try/except ValueError` around date formatting. -/
def formatDateStr (raw : String) : String :=
  match strptime_Y_md_HMS raw with
  | some dt => strftimeLong dt
  | none => raw

/-- `parse_schedule` (lines 309-353) downstream of the selector layer:
assemble the snapshot from the date text, the global comments and the two
extracted tables. -/
def parse_schedule_model (date_str global_comments : String)
    (personnel : List (String × List PersonnelEntry)) (rows : List RawRow) :
    ParsedData :=
  { date := date_str, formatted_date := formatDateStr date_str,
    global_comments := global_comments, personnel_schedule := personnel,
    procedure_schedule := parse_procedure_schedule rows }

/-! ### Person Resolver (`find_person_assignment`, lines 377-446) -/

/-- Line 406: `if person in entry and entry[person].lower() == person_name_lower`. -/
def matchesPerson (pl : String) (e : PersonnelEntry) : Bool :=
  match e.person with
  | some p => pyLower p == pl
  | none => false

/-- Lines 404-414: the first matching `(group, entry)` pair, groups in stored
order, entries in stored order; both loops break at the first hit. -/
def findPersonnel (groups : List (String × List PersonnelEntry)) (pl : String) :
    Option (String × PersonnelEntry) :=
  match groups with
  | [] => none
  | (g, es) :: rest =>
    match es.find? (matchesPerson pl) with
    | some e => some (g, e)
    | none => findPersonnel rest pl

/-- Line 428: `if personnel in procedure and any(p.lower() == person_name_lower
for p in procedure[personnel])` — the absent key is the empty list, on which
`any` is false. -/
def procMatches (pl : String) (p : ProcedureEntry) : Bool :=
  p.personnel.any (fun q => pyLower q == pl)

/-- Lines 432-435: `proc_copy = proc.copy(); proc_copy[room] = room`. -/
def tagCase (r : String) (p : ProcedureEntry) : Case :=
  { toProcedureEntry := p, room := some r }

/-- One iteration of the fallback room scan (lines 426-436): when some
procedure of the room mentions the person, fix `room_assignment` if still
unset, and append the full room's procedures — each copied with a `room`
key — unless that room is already present among the collected cases; the
inner loop then breaks out of the room. -/
def fallbackStep (pl : String) (st : Option String × List Case)
    (kv : String × List ProcedureEntry) : Option String × List Case :=
  if kv.2.any (procMatches pl) then
    let ra := match st.1 with
      | none => some kv.1
      | some r => some r
    let cs := if st.2.any (fun c => c.room == some kv.1) then st.2
      else st.2 ++ kv.2.map (tagCase kv.1)
    (ra, cs)
  else st

/-- The mutable part of `result` as updated by lines 403-436: `found`,
`personnel_info`, `room_assignment` and `cases`. -/
structure ResolveOut where
  found : Bool
  personnel_info : Option PersonnelInfo
  room_assignment : Option String
  cases : List Case
deriving DecidableEq, Repr

/-- Lines 403-436, as a function of the lowercased query: locate the person
in the personnel groups; if the matched entry carries an `assignment` that is
a key of the procedure schedule, take that room's procedure list verbatim;
otherwise scan every room for personnel-list membership. -/
def resolveCore (parsed : ParsedData) (pl : String) : ResolveOut :=
  match findPersonnel parsed.personnel_schedule pl with
  | none =>
    { found := false, personnel_info := none, room_assignment := none, cases := [] }
  | some (g, e) =>
    let info : PersonnelInfo := { toPersonnelEntry := e, group := g }
    match e.assignment with
    | none =>
      { found := true, personnel_info := some info, room_assignment := none,
        cases := [] }
    | some a =>
      match List.lookup a parsed.procedure_schedule with
      | some procs =>
        { found := true, personnel_info := some info, room_assignment := some a,
          cases := procs.map (fun p => { toProcedureEntry := p, room := none }) }
      | none =>
        let st := parsed.procedure_schedule.foldl (fallbackStep pl) (none, [])
        { found := true, personnel_info := some info, room_assignment := st.1,
          cases := st.2 }

/-- `find_person_assignment` (lines 377-446): `date` and `person` are fixed at
initialization (lines 394-401) and never reassigned; the query is lowercased
once (line 391) and every comparison uses the lowercased form. -/
def find_person_assignment (parsed : ParsedData) (person_name : String) :
    PersonAssignment :=
  { date := parsed.formatted_date
    person := person_name
    found := (resolveCore parsed (pyLower person_name)).found
    personnel_info := (resolveCore parsed (pyLower person_name)).personnel_info
    room_assignment := (resolveCore parsed (pyLower person_name)).room_assignment
    cases := (resolveCore parsed (pyLower person_name)).cases }

/-! ### Change Detector (`has_content_changed` / `save_content_hash`,
lines 75-126).  The cryptographic digest `hashlib.sha256(...).hexdigest()` is
a parameter of the embedding; the store is the content of `HASH_FILE`
(`none` when the file does not exist). -/

/-- `calculate_content_hash` (lines 75-85). -/
def calculate_content_hash (sha256hex : String → String) (content : String) :
    String :=
  sha256hex content

/-- The persisted fingerprint: `HASH_FILE` content, `none` when absent. -/
structure HashStore where
  contents : Option String
deriving DecidableEq, Repr

/-- `has_content_changed` (lines 88-113), with its (read-only) effect on the
store made explicit: no previous file means "new"; otherwise compare the
current digest with the stripped file text. -/
def has_content_changed (sha256hex : String → String) (store : HashStore)
    (content : String) : Bool × HashStore :=
  let current := calculate_content_hash sha256hex content
  match store.contents with
  | none => (true, store)
  | some fileText => (current != pyStripStr fileText, store)

/-- `save_content_hash` (lines 116-126): overwrite the file with the digest. -/
def save_content_hash (sha256hex : String → String) (_store : HashStore)
    (content : String) : HashStore :=
  { contents := some (calculate_content_hash sha256hex content) }

/-! ### Concrete scenario snapshots (spec §8, scenarios A/B/C) -/

/-- Scenario A/B personnel entry: `{person: "Smith,J", assignment: "OR3"}`. -/
def entrySmith : PersonnelEntry :=
  { person := some "Smith,J", rotation := none, assignment := some "OR3",
    comment := none }

/-- Scenario A/B procedure row for room `OR3`. -/
def rowA : RawRow :=
  { room := "OR3", time := some "2024-01-01 07:30:00", personnel := [],
    patient_age := none, desc_text := some "Appendectomy (General)",
    cpt_hrefs := [], surgeon := none }

/-- Scenario A/B snapshot: one group `CA-1` with the `Smith,J` entry and one
room `OR3` with one procedure. -/
def snapshotA : ParsedData :=
  parse_schedule_model "2024-01-01 07:30:00" "" [("CA-1", [entrySmith])] [rowA]

/-- A row whose room mentions `Jones,K` in its personnel list. -/
def rowB : RawRow :=
  { room := "OR4", time := some "2024-01-01 09:00:00", personnel := ["Jones,K"],
    patient_age := none, desc_text := some "Knee Arthroscopy (General)",
    cpt_hrefs := [], surgeon := none }

/-- A snapshot where `Jones,K` appears only on the procedure side, never in a
personnel group. -/
def snapshotB : ParsedData :=
  parse_schedule_model "2024-01-01 07:30:00" "" [("CA-1", [entrySmith])]
    [rowA, rowB]

/-- Scenario C personnel entry: `assignment` is `"Float"`, not a room key. -/
def entryFloat : PersonnelEntry :=
  { person := some "Smith,J", rotation := none, assignment := some "Float",
    comment := none }

/-- Scenario C procedure row: `Smith,J` sits in room `OR5`'s personnel list. -/
def rowC : RawRow :=
  { room := "OR5", time := some "2024-01-01 08:00:00",
    personnel := ["Smith,J", "Lee,A"], patient_age := none,
    desc_text := some "Hernia Repair (MAC)", cpt_hrefs := [], surgeon := none }

/-- Scenario C snapshot. -/
def snapshotC : ParsedData :=
  parse_schedule_model "2024-01-01 07:30:00" "" [("CA-1", [entryFloat])] [rowC]

/-- A row whose extracted procedure dictionary is entirely empty. -/
def emptyRow : RawRow :=
  { room := "OR9", time := none, personnel := [], patient_age := none,
    desc_text := none, cpt_hrefs := [], surgeon := none }

/-! ### Helper lemmas -/

/-- `rfind` misses a character that does not occur. -/
theorem rfindIdx_eq_none_of_not_mem {c : Char} :
    ∀ {l : List Char}, c ∉ l → rfindIdx l c = none := by
  intro l
  induction l with
  | nil => intro _; rfl
  | cons a as ih =>
    intro h
    have ha : ¬ a = c := fun hac => h (hac ▸ List.mem_cons_self a as)
    simp only [rfindIdx, ih (fun hm => h (List.mem_cons_of_mem _ hm)), if_neg ha]

/-- `rfind` finds the last occurrence: an occurrence with none to its right. -/
theorem rfindIdx_append_last (c : Char) :
    ∀ (p t : List Char), c ∉ t → rfindIdx (p ++ c :: t) c = some p.length := by
  intro p
  induction p with
  | nil =>
    intro t ht
    simp [rfindIdx, rfindIdx_eq_none_of_not_mem ht]
  | cons a as ih =>
    intro t ht
    simp [rfindIdx, ih t ht]

/-- A suffix free of `c` does not affect `rfind`. -/
theorem rfindIdx_append_of_not_mem (c : Char) :
    ∀ (p t : List Char), c ∉ t → rfindIdx (p ++ t) c = rfindIdx p c := by
  intro p
  induction p with
  | nil =>
    intro t ht
    simp [rfindIdx_eq_none_of_not_mem ht, rfindIdx]
  | cons a as ih =>
    intro t ht
    simp [rfindIdx, ih t ht]

/-- A found index is inside the list. -/
theorem rfindIdx_lt_length (c : Char) :
    ∀ (l : List Char) (i : Nat), rfindIdx l c = some i → i < l.length := by
  intro l
  induction l with
  | nil => intro i h; simp [rfindIdx] at h
  | cons a as ih =>
    intro i h
    rw [show rfindIdx (a :: as) c =
        (match rfindIdx as c with
         | some i => some (i + 1)
         | none => if a = c then some 0 else none) from rfl] at h
    cases hr : rfindIdx as c with
    | some j =>
      rw [hr] at h
      cases h
      exact Nat.succ_lt_succ (ih j hr)
    | none =>
      rw [hr] at h
      by_cases hac : a = c
      · rw [if_pos hac] at h
        cases h
        exact Nat.succ_pos _
      · rw [if_neg hac] at h
        cases h

/-- Evaluation of the anesthesia heuristic on a string decomposed at its last
`(` and last `)`: the slice between them is stripped, and an empty result
suppresses the field. -/
theorem anesthesia_field_split (u m w : List Char)
    (hm : '(' ∉ m) (hw1 : '(' ∉ w) (hw2 : ')' ∉ w) :
    anesthesia_field (u ++ '(' :: (m ++ ')' :: w)) =
      if pyStrip m = [] then none else some (pyStrip m) := by
  have hopen : ('(' : Char) ∈ u ++ '(' :: (m ++ ')' :: w) := by simp
  have hclose : (')' : Char) ∈ u ++ '(' :: (m ++ ')' :: w) := by simp
  have hnotail : ('(' : Char) ∉ m ++ ')' :: w := by
    simp only [List.mem_append, List.mem_cons]
    rintro (h | h | h)
    · exact hm h
    · exact absurd h (by decide)
    · exact hw1 h
  have hlp : rfindIdx (u ++ '(' :: (m ++ ')' :: w)) '(' = some u.length :=
    rfindIdx_append_last '(' u (m ++ ')' :: w) hnotail
  have hshape : u ++ '(' :: (m ++ ')' :: w) = (u ++ '(' :: m) ++ ')' :: w := by
    simp
  have hrp : rfindIdx (u ++ '(' :: (m ++ ')' :: w)) ')' =
      some (u.length + (m.length + 1)) := by
    rw [hshape]
    have := rfindIdx_append_last ')' (u ++ '(' :: m) w hw2
    simpa using this
  have hlt : u.length < u.length + (m.length + 1) := by omega
  have hdrop : (u ++ '(' :: (m ++ ')' :: w)).drop (u.length + 1) = m ++ ')' :: w := by
    have h1 : u ++ '(' :: (m ++ ')' :: w) = (u ++ ['(']) ++ (m ++ ')' :: w) := by
      simp
    rw [h1]
    exact List.drop_left' (by simp)
  have hidx : u.length + (m.length + 1) - (u.length + 1) = m.length := by omega
  have htake : (m ++ ')' :: w).take m.length = m := List.take_left m (')' :: w)
  have hraw : anesthesia_raw (u ++ '(' :: (m ++ ')' :: w)) = some (pyStrip m) := by
    unfold anesthesia_raw
    rw [if_pos ⟨hopen, hclose⟩, hlp, hrp]
    simp only [if_pos hlt, hidx, hdrop, htake]
  unfold anesthesia_field
  rw [hraw]
  by_cases he : pyStrip m = []
  · simp [he]
  · simp [he, List.isEmpty_iff]

/-- No opening parenthesis: no anesthesia field. -/
theorem anesthesia_field_no_open (s : List Char) (h : '(' ∉ s) :
    anesthesia_field s = none := by
  unfold anesthesia_field anesthesia_raw
  rw [if_neg (fun hc => h hc.1)]

/-- No closing parenthesis: no anesthesia field. -/
theorem anesthesia_field_no_close (s : List Char) (h : ')' ∉ s) :
    anesthesia_field s = none := by
  unfold anesthesia_field anesthesia_raw
  rw [if_neg (fun hc => h hc.2)]

/-- The last `(` has no `)` after it: no anesthesia field. -/
theorem anesthesia_field_open_after (u w : List Char)
    (hw1 : '(' ∉ w) (hw2 : ')' ∉ w) :
    anesthesia_field (u ++ '(' :: w) = none := by
  by_cases hy : (')' : Char) ∈ u ++ '(' :: w
  · have hlp : rfindIdx (u ++ '(' :: w) '(' = some u.length :=
      rfindIdx_append_last '(' u w hw1
    have hnoc : (')' : Char) ∉ '(' :: w := by
      simp only [List.mem_cons]
      rintro (h | h)
      · exact absurd h (by decide)
      · exact hw2 h
    have hrp : rfindIdx (u ++ '(' :: w) ')' = rfindIdx u ')' :=
      rfindIdx_append_of_not_mem ')' u ('(' :: w) hnoc
    cases hru : rfindIdx u ')' with
    | none =>
      unfold anesthesia_field anesthesia_raw
      rw [if_pos ⟨by simp, hy⟩, hlp, hrp, hru]
    | some j =>
      have hj : j < u.length := rfindIdx_lt_length ')' u j hru
      unfold anesthesia_field anesthesia_raw
      rw [if_pos ⟨by simp, hy⟩, hlp, hrp, hru]
      simp only [if_neg (by omega : ¬ u.length < j)]
  · exact anesthesia_field_no_close _ hy

/-- Registering a room key with an empty entry list is invisible after the
empty-room filter. -/
theorem filter_ensureRoom (m : List (String × List ProcedureEntry)) (r : String) :
    (ensureRoom m r).filter (fun kv => !kv.2.isEmpty) =
      m.filter (fun kv => !kv.2.isEmpty) := by
  unfold ensureRoom
  by_cases h : m.any (fun kv => kv.1 == r)
  · rw [if_pos h]
  · rw [if_neg h, List.filter_append]
    simp

/-- When no personnel entry matches the lowercased query, the personnel scan
comes back empty. -/
theorem findPersonnel_eq_none (pl : String) :
    ∀ groups : List (String × List PersonnelEntry),
      (∀ kv ∈ groups, ∀ e ∈ kv.2, matchesPerson pl e = false) →
      findPersonnel groups pl = none := by
  intro groups
  induction groups with
  | nil => intro _; rfl
  | cons kv rest ih =>
    intro h
    obtain ⟨g, es⟩ := kv
    have hfind : es.find? (matchesPerson pl) = none := by
      apply List.find?_eq_none.mpr
      intro e he
      simp [h (g, es) (List.mem_cons_self _ _) e he]
    unfold findPersonnel
    rw [hfind]
    exact ih (fun kv hkv e he => h kv (List.mem_cons_of_mem _ hkv) e he)

/-- Characterization of the fallback room scan: starting from a state whose
collected cases mention none of the upcoming (duplicate-free) room keys, the
fold keeps the first matching room (unless an assignment already exists) and
appends every matching room's tagged procedure list exactly once, in room
order. -/
theorem fallback_foldl_char (pl : String) :
    ∀ (rooms : List (String × List ProcedureEntry)) (ra : Option String)
      (cs : List Case),
      (rooms.map Prod.fst).Nodup →
      (∀ kv ∈ rooms, ∀ c ∈ cs, c.room ≠ some kv.1) →
      rooms.foldl (fallbackStep pl) (ra, cs) =
        ((match ra with
          | some r => some r
          | none =>
            ((rooms.filter (fun kv => kv.2.any (procMatches pl))).head?).map
              Prod.fst),
         cs ++ (rooms.filter (fun kv => kv.2.any (procMatches pl))).flatMap
           (fun kv => kv.2.map (tagCase kv.1))) := by
  intro rooms
  induction rooms with
  | nil =>
    intro ra cs _ _
    cases ra <;> simp
  | cons kv rest ih =>
    intro ra cs hnd hdis
    have hnd' : (rest.map Prod.fst).Nodup := by
      rw [List.map_cons, List.nodup_cons] at hnd
      exact hnd.2
    have hknotin : kv.1 ∉ rest.map Prod.fst := by
      rw [List.map_cons, List.nodup_cons] at hnd
      exact hnd.1
    rw [List.foldl_cons]
    by_cases hm : kv.2.any (procMatches pl)
    · have hnotin : cs.any (fun c => c.room == some kv.1) = false := by
        rw [List.any_eq_false]
        intro c hc
        simp only [beq_iff_eq]
        exact hdis kv (List.mem_cons_self kv rest) c hc
      have hstep : fallbackStep pl (ra, cs) kv =
          ((match ra with | none => some kv.1 | some r => some r),
           cs ++ kv.2.map (tagCase kv.1)) := by
        unfold fallbackStep
        rw [if_pos hm]
        simp [hnotin]
      have hdis2 : ∀ kv2 ∈ rest, ∀ c ∈ cs ++ kv.2.map (tagCase kv.1),
          c.room ≠ some kv2.1 := by
        intro kv2 hkv2 c hc
        rcases List.mem_append.mp hc with hc1 | hc2
        · exact hdis kv2 (List.mem_cons_of_mem _ hkv2) c hc1
        · obtain ⟨p, _, rfl⟩ := List.mem_map.mp hc2
          intro heq
          have h1 : kv.1 = kv2.1 := by
            have h2 := heq
            simp only [tagCase, Option.some.injEq] at h2
            exact h2
          exact hknotin (h1 ▸ List.mem_map_of_mem Prod.fst hkv2)
      rw [hstep, ih _ _ hnd' hdis2]
      cases ra with
      | none => simp [List.filter_cons, hm, List.append_assoc]
      | some r => simp [List.filter_cons, hm, List.append_assoc]
    · have hm2 : kv.2.any (procMatches pl) = false := by
        simpa using hm
      have hstep : fallbackStep pl (ra, cs) kv = (ra, cs) := by
        unfold fallbackStep
        rw [if_neg hm]
      have hdis2 : ∀ kv2 ∈ rest, ∀ c ∈ cs, c.room ≠ some kv2.1 :=
        fun kv2 hkv2 c hc => hdis kv2 (List.mem_cons_of_mem _ hkv2) c hc
      rw [hstep, ih _ _ hnd' hdis2]
      simp [List.filter_cons, hm2]

/-! ### Claim theorems -/

/-- C1 (counterexample): in scenario A, resolution of `Smith,J` succeeds with
`room_assignment = OR3`, but the single case is the room's procedure entry
taken verbatim — its `room` field is absent (`none`), not `"OR3"` as the
claim states. -/
theorem claim_C1_counterexample :
    (find_person_assignment snapshotA "Smith,J").found = true ∧
    (find_person_assignment snapshotA "Smith,J").room_assignment = some "OR3" ∧
    (find_person_assignment snapshotA "Smith,J").cases.map (fun c => c.room) =
      [none] ∧
    [(none : Option String)] ≠ [some "OR3"] := by decide

/-- C1 (amended): for the scenario A snapshot, resolving `Smith,J` returns
`found = true`, `room_assignment = OR3`, and `cases` equal to the room's
one-procedure list verbatim — carrying the time, the description
`Appendectomy (General)` and anesthesia type `General`, with no `room` field
added (the direct-assignment path copies procedures untagged). -/
theorem claim_C1_amended :
    (find_person_assignment snapshotA "Smith,J").found = true ∧
    (find_person_assignment snapshotA "Smith,J").room_assignment = some "OR3" ∧
    (find_person_assignment snapshotA "Smith,J").cases =
      [{ toProcedureEntry :=
           { time := some "2024-01-01 07:30:00", personnel := [],
             patient_age := none, description := some "Appendectomy (General)",
             cpt_codes := [], anesthesia_type := some "General",
             surgeon := none },
         room := none }] := by decide

/-- C2 (counterexample): `Smith,J` and `smith,j` are equal up to case, yet
resolving them against the scenario A snapshot gives different
`PersonAssignment` records, because the `person` field echoes the query
verbatim. -/
theorem claim_C2_counterexample :
    pyLower "Smith,J" = pyLower "smith,j" ∧
    find_person_assignment snapshotA "Smith,J" ≠
      find_person_assignment snapshotA "smith,j" := by decide

/-- C2 (amended): for every snapshot, two queries that agree after
lowercasing resolve to results that agree on every field except `person`
(which echoes each query string verbatim): `date`, `found`,
`personnel_info`, `room_assignment` and `cases` all coincide. -/
theorem claim_C2_amended (parsed : ParsedData) (n1 n2 : String)
    (h : pyLower n1 = pyLower n2) :
    (find_person_assignment parsed n1).date =
      (find_person_assignment parsed n2).date ∧
    (find_person_assignment parsed n1).found =
      (find_person_assignment parsed n2).found ∧
    (find_person_assignment parsed n1).personnel_info =
      (find_person_assignment parsed n2).personnel_info ∧
    (find_person_assignment parsed n1).room_assignment =
      (find_person_assignment parsed n2).room_assignment ∧
    (find_person_assignment parsed n1).cases =
      (find_person_assignment parsed n2).cases := by
  unfold find_person_assignment
  rw [h]
  exact ⟨rfl, rfl, rfl, rfl, rfl⟩

/-- C2 (witness): the amended theorem applied to the scenario A snapshot and
the pair `Smith,J` / `smith,j`. -/
theorem claim_C2_witness :
    pyLower "Smith,J" = pyLower "smith,j" ∧
    ((find_person_assignment snapshotA "Smith,J").date =
      (find_person_assignment snapshotA "smith,j").date ∧
    (find_person_assignment snapshotA "Smith,J").found =
      (find_person_assignment snapshotA "smith,j").found ∧
    (find_person_assignment snapshotA "Smith,J").personnel_info =
      (find_person_assignment snapshotA "smith,j").personnel_info ∧
    (find_person_assignment snapshotA "Smith,J").room_assignment =
      (find_person_assignment snapshotA "smith,j").room_assignment ∧
    (find_person_assignment snapshotA "Smith,J").cases =
      (find_person_assignment snapshotA "smith,j").cases) :=
  ⟨by decide, claim_C2_amended snapshotA "Smith,J" "smith,j" (by decide)⟩

/-- C3 (counterexample): on `A (B) C)` the claim's premise holds (the last
`(` is followed by a `)` enclosing `B`), yet the code extracts `B) C` — the
slice runs to the last `)`, not the one immediately after the last `(`;
on `Proc ( General )` the code strips surrounding whitespace instead of
returning the text between the parentheses exactly; on `Proc ()` the
premise holds but no field is emitted because the extracted text is empty. -/
theorem claim_C3_counterexample :
    "A (B) C)".toList =
      "A ".toList ++ '(' :: ("B".toList ++ ')' :: " C)".toList) ∧
    '(' ∉ "B".toList ∧ ')' ∉ "B".toList ∧ '(' ∉ " C)".toList ∧
    anesthesia_field "A (B) C)".toList ≠ some "B".toList ∧
    anesthesia_field "A (B) C)".toList = some "B) C".toList ∧
    anesthesia_field "Proc ( General )".toList = some "General".toList ∧
    anesthesia_field "Proc ()".toList = none := by decide

/-- C3 (amended): when the text contains a `(` and a `)` with the last `(`
before the last `)` — i.e. it decomposes as `u ++ ( ++ m ++ ) ++ w` with no
`(` in `m` or `w` and no `)` in `w` — the emitted anesthesia type is the
text strictly between the last `(` and the last `)` with surrounding
whitespace stripped, and the field is omitted when that stripped text is
empty; when the text lacks a `(`, lacks a `)`, or its last `(` has no `)`
after it, no anesthesia field is emitted. -/
theorem claim_C3_amended :
    (∀ u m w : List Char, '(' ∉ m → '(' ∉ w → ')' ∉ w →
      anesthesia_field (u ++ '(' :: (m ++ ')' :: w)) =
        if pyStrip m = [] then none else some (pyStrip m)) ∧
    (∀ s : List Char, '(' ∉ s → anesthesia_field s = none) ∧
    (∀ s : List Char, ')' ∉ s → anesthesia_field s = none) ∧
    (∀ u w : List Char, '(' ∉ w → ')' ∉ w →
      anesthesia_field (u ++ '(' :: w) = none) :=
  ⟨anesthesia_field_split, anesthesia_field_no_open, anesthesia_field_no_close,
   anesthesia_field_open_after⟩

/-- C3 (witness): the amended theorem applied to the decomposition of
`Appendectomy (General)`, which yields `General`. -/
theorem claim_C3_witness :
    (anesthesia_field
        ("Appendectomy ".toList ++ '(' :: ("General".toList ++ ')' :: "".toList)) =
      if pyStrip "General".toList = [] then none
      else some (pyStrip "General".toList)) ∧
    anesthesia_fieldStr "Appendectomy (General)" = some "General" :=
  ⟨claim_C3_amended.1 "Appendectomy ".toList "General".toList "".toList
    (by decide) (by decide) (by decide), by decide⟩

/-- C4: when the matched personnel entry's assignment is not a key of the
procedure schedule and the room keys are duplicate-free (the dictionary
invariant), the resolver's room scan sets `room_assignment` to the first
room containing a case-insensitive personnel match, copies every matching
room's full procedure list into `cases` with each entry tagged by its room,
adds no room's list more than once, and tags every collected case with a
room. -/
theorem claim_C4 (parsed : ParsedData) (name g : String) (e : PersonnelEntry)
    (a : String)
    (hkeys : (parsed.procedure_schedule.map Prod.fst).Nodup)
    (hfind : findPersonnel parsed.personnel_schedule (pyLower name) =
      some (g, e))
    (hassign : e.assignment = some a)
    (hlook : List.lookup a parsed.procedure_schedule = none) :
    (find_person_assignment parsed name).room_assignment =
      ((parsed.procedure_schedule.filter
        (fun kv => kv.2.any (procMatches (pyLower name)))).head?).map
        Prod.fst ∧
    (find_person_assignment parsed name).cases =
      (parsed.procedure_schedule.filter
        (fun kv => kv.2.any (procMatches (pyLower name)))).flatMap
        (fun kv => kv.2.map (tagCase kv.1)) ∧
    ((parsed.procedure_schedule.filter
        (fun kv => kv.2.any (procMatches (pyLower name)))).map
        Prod.fst).Nodup ∧
    ∀ c ∈ (find_person_assignment parsed name).cases, c.room ≠ none := by
  have hchar := fallback_foldl_char (pyLower name) parsed.procedure_schedule
    none [] hkeys (fun kv _ c hc => absurd hc (List.not_mem_nil c))
  have hcore : resolveCore parsed (pyLower name) =
      { found := true,
        personnel_info := some { toPersonnelEntry := e, group := g },
        room_assignment := (parsed.procedure_schedule.foldl
          (fallbackStep (pyLower name)) (none, [])).1,
        cases := (parsed.procedure_schedule.foldl
          (fallbackStep (pyLower name)) (none, [])).2 } := by
    simp only [resolveCore, hfind, hassign, hlook]
  have hro : (find_person_assignment parsed name).room_assignment =
      ((parsed.procedure_schedule.filter
        (fun kv => kv.2.any (procMatches (pyLower name)))).head?).map
        Prod.fst := by
    show (resolveCore parsed (pyLower name)).room_assignment = _
    rw [hcore]
    simp only [hchar]
  have hca : (find_person_assignment parsed name).cases =
      (parsed.procedure_schedule.filter
        (fun kv => kv.2.any (procMatches (pyLower name)))).flatMap
        (fun kv => kv.2.map (tagCase kv.1)) := by
    show (resolveCore parsed (pyLower name)).cases = _
    rw [hcore]
    simp only [hchar]
    exact List.nil_append _
  refine ⟨hro, hca, ?_, ?_⟩
  · exact List.Nodup.sublist ((List.filter_sublist _).map Prod.fst) hkeys
  · intro c hc
    rw [hca] at hc
    obtain ⟨kv, _, hc2⟩ := List.mem_flatMap.mp hc
    obtain ⟨p, _, rfl⟩ := List.mem_map.mp hc2
    simp [tagCase]

/-- C4 (witness): the theorem applied to scenario C — assignment `Float` is
not a room, `Smith,J` appears in room `OR5`'s personnel list, and the
resolver lands on `OR5`. -/
theorem claim_C4_witness :
    ((find_person_assignment snapshotC "Smith,J").room_assignment =
      ((snapshotC.procedure_schedule.filter
        (fun kv => kv.2.any (procMatches (pyLower "Smith,J")))).head?).map
        Prod.fst ∧
    (find_person_assignment snapshotC "Smith,J").cases =
      (snapshotC.procedure_schedule.filter
        (fun kv => kv.2.any (procMatches (pyLower "Smith,J")))).flatMap
        (fun kv => kv.2.map (tagCase kv.1)) ∧
    ((snapshotC.procedure_schedule.filter
        (fun kv => kv.2.any (procMatches (pyLower "Smith,J")))).map
        Prod.fst).Nodup ∧
    ∀ c ∈ (find_person_assignment snapshotC "Smith,J").cases,
      c.room ≠ none) ∧
    (find_person_assignment snapshotC "Smith,J").room_assignment =
      some "OR5" :=
  ⟨claim_C4 snapshotC "Smith,J" "CA-1" entryFloat "Float" (by decide)
    (by decide) (by decide) (by decide), by decide⟩

/-- C5: a query that matches no personnel entry in any group resolves to
`found = false` with `personnel_info`, `room_assignment` and `cases` at
their defaults, regardless of what the procedure rows contain — resolution
never starts from the procedure side. -/
theorem claim_C5 (parsed : ParsedData) (name : String)
    (h : ∀ kv ∈ parsed.personnel_schedule, ∀ e ∈ kv.2,
      matchesPerson (pyLower name) e = false) :
    (find_person_assignment parsed name).found = false ∧
    (find_person_assignment parsed name).personnel_info = none ∧
    (find_person_assignment parsed name).room_assignment = none ∧
    (find_person_assignment parsed name).cases = [] := by
  have hf := findPersonnel_eq_none (pyLower name) parsed.personnel_schedule h
  have hcore : resolveCore parsed (pyLower name) =
      { found := false, personnel_info := none, room_assignment := none,
        cases := [] } := by
    unfold resolveCore
    rw [hf]
  refine ⟨?_, ?_, ?_, ?_⟩
  · show (resolveCore parsed (pyLower name)).found = false
    rw [hcore]
  · show (resolveCore parsed (pyLower name)).personnel_info = none
    rw [hcore]
  · show (resolveCore parsed (pyLower name)).room_assignment = none
    rw [hcore]
  · show (resolveCore parsed (pyLower name)).cases = []
    rw [hcore]

/-- C5 (witness): the theorem applied to a snapshot where `Jones,K` occurs
only in a procedure's personnel list, never in the personnel groups. -/
theorem claim_C5_witness :
    ((find_person_assignment snapshotB "Jones,K").found = false ∧
    (find_person_assignment snapshotB "Jones,K").personnel_info = none ∧
    (find_person_assignment snapshotB "Jones,K").room_assignment = none ∧
    (find_person_assignment snapshotB "Jones,K").cases = []) ∧
    (∃ kv ∈ snapshotB.procedure_schedule, ∃ p ∈ kv.2,
      "Jones,K" ∈ p.personnel) :=
  ⟨claim_C5 snapshotB "Jones,K" (by decide), by decide⟩

/-- C6: every room key of a parsed procedure schedule maps to a non-empty
entry list, and a row whose extracted procedure dictionary is entirely empty
contributes nothing to the final mapping. -/
theorem claim_C6 :
    (∀ (rows : List RawRow) (kv : String × List ProcedureEntry),
      kv ∈ parse_procedure_schedule rows → kv.2 ≠ []) ∧
    (∀ (rows : List RawRow) (row : RawRow), mkProcedure row = emptyProcedure →
      parse_procedure_schedule (rows ++ [row]) =
        parse_procedure_schedule rows) := by
  constructor
  · intro rows kv hkv
    have h := List.of_mem_filter hkv
    simpa using h
  · intro rows row hrow
    unfold parse_procedure_schedule
    rw [List.foldl_append, List.foldl_cons, List.foldl_nil]
    have hstep : procStep (List.foldl procStep [] rows) row =
        ensureRoom (List.foldl procStep [] rows) row.room := by
      unfold procStep
      simp [hrow]
    rw [hstep, filter_ensureRoom]

/-- C6 (witness): the theorem applied to the scenario A row (a non-empty
procedure in room `OR3`) and to an entirely empty row, which the parse
ignores. -/
theorem claim_C6_witness :
    (("OR3", [mkProcedure rowA]) ∈ parse_procedure_schedule [rowA] ∧
      ([mkProcedure rowA] : List ProcedureEntry) ≠ []) ∧
    (mkProcedure emptyRow = emptyProcedure ∧
      parse_procedure_schedule ([rowA] ++ [emptyRow]) =
        parse_procedure_schedule [rowA]) :=
  ⟨⟨by decide, claim_C6.1 [rowA] ("OR3", [mkProcedure rowA]) (by decide)⟩,
   ⟨by decide, claim_C6.2 [rowA] emptyRow (by decide)⟩⟩

/-- C7: with a whitespace-free digest, novelty holds whenever no fingerprint
file exists; an immediate repeat with byte-identical content right after
recording is not novel; and in general novelty holds exactly when the
current digest differs from the stored one (the stripped file text, which
for a recorded digest is the digest itself). -/
theorem claim_C7 (sha256hex : String → String)
    (hws : ∀ s, pyStripStr (sha256hex s) = sha256hex s)
    (store : HashStore) (content c0 prev : String) :
    (has_content_changed sha256hex { contents := none } content).1 = true ∧
    (has_content_changed sha256hex
      (save_content_hash sha256hex store content) content).1 = false ∧
    ((has_content_changed sha256hex { contents := some prev } content).1 =
        true ↔
      calculate_content_hash sha256hex content ≠ pyStripStr prev) ∧
    ((has_content_changed sha256hex
        (save_content_hash sha256hex store c0) content).1 = true ↔
      calculate_content_hash sha256hex content ≠
        calculate_content_hash sha256hex c0) := by
  refine ⟨rfl, ?_, ?_, ?_⟩
  · simp [has_content_changed, save_content_hash, calculate_content_hash, hws]
  · simp [has_content_changed, calculate_content_hash, bne_iff_ne]
  · simp [has_content_changed, save_content_hash, calculate_content_hash, hws,
      bne_iff_ne]

/-- C7 (witness): the theorem applied to a concrete whitespace-free digest
function and concrete store states. -/
theorem claim_C7_witness :
    (has_content_changed (fun _ => "deadbeef") { contents := none }
      "doc").1 = true ∧
    (has_content_changed (fun _ => "deadbeef")
      (save_content_hash (fun _ => "deadbeef") { contents := some "x" } "doc")
      "doc").1 = false ∧
    ((has_content_changed (fun _ => "deadbeef") { contents := some "y" }
        "doc").1 = true ↔
      calculate_content_hash (fun _ => "deadbeef") "doc" ≠ pyStripStr "y") ∧
    ((has_content_changed (fun _ => "deadbeef")
        (save_content_hash (fun _ => "deadbeef") { contents := some "x" }
          "d0") "doc").1 = true ↔
      calculate_content_hash (fun _ => "deadbeef") "doc" ≠
        calculate_content_hash (fun _ => "deadbeef") "d0") :=
  claim_C7 (fun _ => "deadbeef") (fun _ => rfl) { contents := some "x" }
    "doc" "d0" "y"

/-- C8: the novelty check is read-only — it returns the store unchanged for
every digest function, store state and content — and only the separate
record operation writes the fingerprint. -/
theorem claim_C8 (sha256hex : String → String) (store : HashStore)
    (content : String) :
    (has_content_changed sha256hex store content).2 = store ∧
    save_content_hash sha256hex store content =
      { contents := some (calculate_content_hash sha256hex content) } := by
  refine ⟨?_, rfl⟩
  obtain ⟨c⟩ := store
  cases c <;> rfl

/-- C9: schedule assembly is total on the date string — `formatted_date` is
the long-form rendering of the timestamp when it parses under
`%Y-%m-%d %H:%M:%S`, and the raw string verbatim when it does not. -/
theorem claim_C9 (date_str gc : String)
    (pers : List (String × List PersonnelEntry)) (rows : List RawRow) :
    (strptime_Y_md_HMS date_str = none ∧
      (parse_schedule_model date_str gc pers rows).formatted_date =
        date_str) ∨
    (∃ dt, strptime_Y_md_HMS date_str = some dt ∧
      (parse_schedule_model date_str gc pers rows).formatted_date =
        strftimeLong dt) := by
  cases h : strptime_Y_md_HMS date_str with
  | none =>
    exact Or.inl ⟨rfl, by simp [parse_schedule_model, formatDateStr, h]⟩
  | some dt =>
    exact Or.inr ⟨dt, rfl, by simp [parse_schedule_model, formatDateStr, h]⟩

/-- C10: for every snapshot and query, the resolution result's `date` equals
the snapshot's `formatted_date` and its `person` echoes the query string
verbatim, found or not. -/
theorem claim_C10 (parsed : ParsedData) (name : String) :
    (find_person_assignment parsed name).date = parsed.formatted_date ∧
    (find_person_assignment parsed name).person = name :=
  ⟨rfl, rfl⟩

/-! ### Corroborating evaluations of the date-formatting model -/

/-- A valid timestamp renders in long form (2024-01-01 was a Monday). -/
theorem formatDateStr_valid_sample :
    formatDateStr "2024-01-01 07:30:00" = "Monday, January 01, 2024" := by
  decide

/-- The fallback text `Unknown Date` (line 324) does not parse and survives
verbatim. -/
theorem formatDateStr_invalid_sample :
    formatDateStr "Unknown Date" = "Unknown Date" := by decide

/-- An out-of-range calendar day fails validation and falls back verbatim. -/
theorem formatDateStr_feb30_sample :
    formatDateStr "2024-02-30 10:00:00" = "2024-02-30 10:00:00" := by decide

/-- A leap-year day parses and renders (2024-02-29 was a Thursday). -/
theorem formatDateStr_leap_sample :
    formatDateStr "2024-02-29 10:00:00" = "Thursday, February 29, 2024" := by
  decide
